import Mathlib

/-!
Verification of the D20 binary-option / social-bet settlement system.

The repository consists of TypeScript clients, tests and an off-chain
settler for two Solana Anchor programs (`d20_binary_options` and
`social_bet`).  The on-chain instruction handlers themselves are not part
of the repository snapshot, so the financial settlement engine, the claim
and refund operations and the optimistic-settlement challenge step are
modelled here from the specification; the off-chain settler
(`scripts/settle-pool.ts`) and the read-only scanner
(`listener_frontend`) are embedded directly from their TypeScript source.
All machine integers are modelled as `Nat`/`Int`; the quantities involved
(lamports, basis points, unix timestamps) stay far below 2^64 in every
scenario considered, and the source operates on arbitrary-precision `BN`
values for the financial math, so no overflow wrapping is modelled.
-/

/-! ## Settlement engine (fee and payout arithmetic)

Modelled from the spec: the on-chain `settle_pool` / `claim_prize`
instruction handlers of the `d20_binary_options` program are not in the
repository; the arithmetic below follows spec section 4.2 (and the expected
payout computation re-derived in `tests/binary-option.ts` lines 418-431).
-/

/-- Modelled from the spec: `settlementFee = floor(totalStaked * settleFeeBps / 10000)`
(spec section 4.2 step 3; the on-chain `settle_pool` handler is missing from the
repository snapshot). -/
def settlementFee (totalStaked settleFeeBps : ℕ) : ℕ :=
  totalStaked * settleFeeBps / 10000

/-- Modelled from the spec: `distributable = totalStaked - settlementFee`
(spec section 4.2 step 4). -/
def distributableOf (totalStaked settleFeeBps : ℕ) : ℕ :=
  totalStaked - settlementFee totalStaked settleFeeBps

/-- Modelled from the spec: each winning position's payout share
`floor(distributable * positionStake / winningSideTotal)` (spec section 4.2
step 6; the on-chain `claim_prize` handler is missing from the repository
snapshot). -/
def payoutShare (distributable positionStake winningSideTotal : ℕ) : ℕ :=
  distributable * positionStake / winningSideTotal

/-- Modelled from the spec: `clearingFee = floor(payoutShare * clearingFeeBps / 10000)`
(spec section 4.2 step 7). -/
def clearingFee (share clearingFeeBps : ℕ) : ℕ :=
  share * clearingFeeBps / 10000

/-- Modelled from the spec: net payout of a claim, `payoutShare - clearingFee`
(spec section 4.2 step 7). -/
def netPayout (share clearingFeeBps : ℕ) : ℕ :=
  share - clearingFee share clearingFeeBps

/-- Modelled from the spec: the independent per-claim payout shares of all
winning positions (spec section 4.2 step 6, lazy per-claim floor division). -/
def winnerShares (distributable winningSideTotal : ℕ) (stakes : List ℕ) : List ℕ :=
  stakes.map fun s => payoutShare distributable s winningSideTotal

/-- Modelled from the spec: the dust retained by the pool, the shortfall of the
floored shares against the distributable amount (spec section 4.2 step 8). -/
def dustRemainder (distributable : ℕ) (shares : List ℕ) : ℕ :=
  distributable - shares.sum

/-- Total staked in a binary pool: winning-side total plus losing-side total
(spec section 4.2 step 2). -/
def totalStakedOf (winningStakes : List ℕ) (losingTotal : ℕ) : ℕ :=
  winningStakes.sum + losingTotal

/-! ## Off-chain settler (`scripts/settle-pool.ts`), embedded from source -/

/-- Embeds the winning-side computation of `PoolSettler.settleExpiredPool`
(`scripts/settle-pool.ts` line 274):
`winningSide = currentPrice.gt(poolInfo.targetPrice) ? 0 : 1` with
`0 = CALL` (upper) and `1 = PUT` (lower). -/
def winningSideOf (currentPrice targetPrice : ℤ) : ℕ :=
  if targetPrice < currentPrice then 0 else 1

/-- Embeds `PoolSettler.getCurrentPrice` (`scripts/settle-pool.ts` lines
287-318).  The input is the outcome of the Pyth HTTP fetch: either the call
threw (`Except.error`), or it returned a list of price records whose `price`
field may be undefined (`Option ℚ`, the JS float modelled as a rational).
On a successful fetch with a defined first price the code returns
`Math.floor(price * 1_000_000)`; on a thrown fetch, an empty array or an
undefined price it falls through to the mock fallback and returns the
hard-coded `BN(105_000_000)`.  The outer catch (returning `null`) guards only
statically non-throwing code and is unreachable in this data flow. -/
def getCurrentPrice (pythFetch : Except Unit (List (Option ℚ))) : Option ℤ :=
  match pythFetch with
  | .error _ => some 105000000
  | .ok [] => some 105000000
  | .ok (none :: _) => some 105000000
  | .ok (some p :: _) => some ⌊p * 1000000⌋

/-- A scheduling decision of `PoolSettler.schedulePoolSettlement`: either
settle immediately, or arm a one-shot timer that fires at the given
millisecond timestamp. -/
inductive ScheduleAction where
  | fireNow
  | timerAt (fireTimeMs : ℤ)
deriving DecidableEq, Repr

/-- Embeds the timing logic of `PoolSettler.schedulePoolSettlement`
(`scripts/settle-pool.ts` lines 189-216): `expiryTime = expiry * 1000`,
`timeUntilExpiry = expiryTime - currentTime`; if `timeUntilExpiry <= 0` the
pool is settled immediately, otherwise `setTimeout(.., timeUntilExpiry)` arms
a timer that fires at `currentTime + timeUntilExpiry`. -/
def schedulePoolSettlement (expirySec nowMs : ℤ) : ScheduleAction :=
  let expiryTimeMs := expirySec * 1000
  let timeUntilExpiry := expiryTimeMs - nowMs
  if timeUntilExpiry ≤ 0 then .fireNow else .timerAt (nowMs + timeUntilExpiry)

/-- Outcome of one run of `PoolSettler.settleExpiredPool`.  The body of that
method is wrapped in a try/catch whose handler only logs, so every outcome —
including a missing price and a failed `settle_pool` submission — returns
normally to the caller. -/
inductive AttemptOutcome where
  | priceUnavailable
  | configFetchFailed
  | submitFailed
  | submitted
deriving DecidableEq, Repr

/-- Embeds `PoolSettler.settleExpiredPool` (`scripts/settle-pool.ts` lines
244-285) as a function of its three I/O outcomes: the price returned by
`getCurrentPrice`, the config fetch, and the `settle_pool` transaction
submission.  Every branch returns normally (errors are swallowed by the
internal catch), which is what the returned `AttemptOutcome` records. -/
def settleExpiredPool (price : Option ℤ) (configFetch : Except Unit Unit)
    (submit : Except Unit Unit) : AttemptOutcome :=
  match price with
  | none => .priceUnavailable
  | some _ =>
    match configFetch with
    | .error _ => .configFetchFailed
    | .ok _ =>
      match submit with
      | .error _ => .submitFailed
      | .ok _ => .submitted

/-- Outcome of the ledger fetch performed at the top of
`PoolSettler.settlePool`: the fetch may throw, or return the pool record with
its status (`0 = Active`, `1 = Settled`, `2 = Cancelled`). -/
inductive FetchOutcome where
  | failed
  | ok (status : ℕ)
deriving DecidableEq, Repr

/-- Embeds `PoolSettler.settlePool` (`scripts/settle-pool.ts` lines 219-242)
acting on the `activePools` registry (modelled as the list of tracked pool
identifiers).  On a failed fetch the outer catch keeps the pool tracked; on a
non-Active status the pool is deleted as already settled; otherwise
`settleExpiredPool` runs and — because it never throws — the subsequent
`this.activePools.delete(poolAddress)` always executes, whatever the attempt
outcome was.  Returns the new registry and the attempt outcome (if one ran). -/
def settlePoolStep (registry : List ℕ) (p : ℕ) (fetch : FetchOutcome)
    (price : Option ℤ) (configFetch : Except Unit Unit)
    (submit : Except Unit Unit) : List ℕ × Option AttemptOutcome :=
  match fetch with
  | .failed => (registry, none)
  | .ok status =>
    if status ≠ 0 then
      (registry.erase p, none)
    else
      (registry.erase p, some (settleExpiredPool price configFetch submit))

/-! ## Scheduler event system (`scripts/settle-pool.ts`), embedded from source

The settler keeps `activePools : Map<string, {expiry, timer?}>` and creates a
Node timer per scheduling call.  `handleNewPool` (lines 177-187) does
`activePools.set(...)` — overwriting any existing entry — and then calls
`schedulePoolSettlement`, which either calls `settlePool` at once or arms a
fresh `setTimeout`.  Nothing ever calls `clearTimeout` on a previously armed
timer when an entry is overwritten, and no per-pool in-progress marker
exists, so a previously armed timer keeps pending and still fires.  The state
below records the registry, the multiset of pending timers and the multiset
of in-flight `settlePool` executions; pools are identified by `ℕ` (the
string pool address abstracted). -/

structure SchedState where
  registry : List ℕ
  pending : List ℕ
  inFlight : List ℕ
deriving DecidableEq, Repr

/-- The empty scheduler state at process start. -/
def SchedState.init : SchedState := ⟨[], [], []⟩

/-- Events observable by the settler process: a `poolCreated` notification
(with the pool's expiry and the wall clock at delivery), a pending timer
firing, and an in-flight settlement attempt resolving (terminal or not). -/
inductive SchedEvent where
  | created (p : ℕ) (expirySec nowMs : ℤ)
  | timerFires (p : ℕ)
  | attemptDone (p : ℕ) (terminal : Bool)
deriving DecidableEq, Repr

/-- Insert a pool identifier into the registry, `Map.set` semantics
(idempotent on the key set). -/
def registrySet (r : List ℕ) (p : ℕ) : List ℕ :=
  if p ∈ r then r else p :: r

/-- One step of the settler, derived from `handleNewPool`,
`schedulePoolSettlement`, the `setTimeout` callback (lines 205-208) and
`settlePool`'s registry handling:
`created` overwrites the registry entry and either starts a settlement
immediately (expired pool) or arms an additional timer — the previous timer,
if any, is not cancelled; `timerFires` consumes one pending timer and starts
a `settlePool` execution; `attemptDone` ends one execution and removes the
pool from the registry exactly when the attempt reported a terminal
outcome. -/
def schedStep (s : SchedState) : SchedEvent → SchedState
  | .created p expirySec nowMs =>
    match schedulePoolSettlement expirySec nowMs with
    | .fireNow => { s with registry := registrySet s.registry p,
                           inFlight := p :: s.inFlight }
    | .timerAt _ => { s with registry := registrySet s.registry p,
                             pending := p :: s.pending }
  | .timerFires p =>
    if p ∈ s.pending then
      { s with pending := s.pending.erase p, inFlight := p :: s.inFlight }
    else s
  | .attemptDone p terminal =>
    { s with inFlight := s.inFlight.erase p,
             registry := if terminal then s.registry.erase p else s.registry }

/-- Run the settler over a list of observed events from a given state. -/
def schedRun (s : SchedState) : List SchedEvent → SchedState
  | [] => s
  | e :: es => schedRun (schedStep s e) es

/-- Number of concurrently in-flight `settlePool` executions for pool `p`. -/
def inFlightCount (s : SchedState) (p : ℕ) : ℕ :=
  s.inFlight.count p

/-! ## Read-only market scanner (`listener_frontend`), embedded from source -/

/-- The `market` account fields read by `HistoricalMarketScanner.getMarketById`
(`src/unnamed/part_000`).  Only the fields involved in the conversion logic
are carried; the remaining ones are plain copies and are represented by the
identifier field. -/
structure MarketAccount where
  id : ℕ
  optionsCount : ℕ
  options : List String
  optionTotals : List ℕ
  status : ℕ
deriving DecidableEq, Repr

/-- The frontend-facing market record produced by the scanner. -/
structure MarketData where
  id : ℕ
  options : List String
  optionTotals : List ℕ
  statusCode : ℕ
deriving DecidableEq, Repr

/-- The `userBet` account fields read by `HistoricalMarketScanner.getUserBet`. -/
structure UserBetAccount where
  marketId : ℕ
  optionIndex : ℕ
  amount : ℕ
  claimed : Bool
deriving DecidableEq, Repr

/-- The config account fields read by `HistoricalMarketScanner.getConfig`. -/
structure ConfigAccount where
  createFee : ℕ
  joinFeeBps : ℕ
  clearingFeeBps : ℕ
  settleFeeBps : ℕ
  nextMarketId : ℕ
deriving DecidableEq, Repr

/-- The field conversion performed inside `getMarketById`
(`src/unnamed/part_000` lines 116-136): options and totals are truncated to
`optionsCount`, the rest copied. -/
def toMarketData (m : MarketAccount) : MarketData :=
  { id := m.id
    options := m.options.take m.optionsCount
    optionTotals := m.optionTotals.take m.optionsCount
    statusCode := m.status }

/-- Embeds `HistoricalMarketScanner.getMarketById` (`src/unnamed/part_000`
lines 107-140): the account fetch runs inside a try/catch whose handler
returns `null`; on success the converted record is returned. -/
def getMarketById (fetchRes : Except Unit MarketAccount) : Option MarketData :=
  match fetchRes with
  | .error _ => none
  | .ok m => some (toMarketData m)

/-- Embeds `HistoricalMarketScanner.getUserBet` (`src/unnamed/part_000` lines
145-167): same try/catch shape, returning `null` on a failed fetch. -/
def getUserBet (fetchRes : Except Unit UserBetAccount) : Option UserBetAccount :=
  match fetchRes with
  | .error _ => none
  | .ok b => some b

/-- Embeds `HistoricalMarketScanner.getConfig` (`src/unnamed/part_000` lines
222-243): same try/catch shape, returning `null` on a failed fetch. -/
def getConfig (fetchRes : Except Unit ConfigAccount) : Option ConfigAccount :=
  match fetchRes with
  | .error _ => none
  | .ok c => some c

/-- Whether an `Except` value is a success. -/
def exceptIsOk {ε α : Type} : Except ε α → Bool
  | .error _ => false
  | .ok _ => true

/-! ## Multi-option market lifecycle (claim, refund, challenge)

Modelled from the spec: the `social_bet` on-chain instruction handlers
(`claim_prize`, `claim_cancelled_refund`, `challenge_settlement`) are not in
the repository; the operations below follow spec sections 4.2 (claim
contract), 4.3 (challenge window) and 4.4 (RefundEngine). -/

/-- Lifecycle phase of a pool or market (spec section 4.3). -/
inductive Phase where
  | opened
  | closed
  | proposed
  | disputed
  | settled
  | cancelled
deriving DecidableEq, Repr

/-- A participant's position: chosen side/option, cumulative staked value and
the claimed flag (spec section 3, Position). -/
structure Position where
  side : ℕ
  amount : ℕ
  claimed : Bool
deriving DecidableEq, Repr

/-- Financial state of a settled binary pool as seen by a claim: lifecycle
phase, recorded winning side and the two side totals (spec section 3). -/
structure PoolState where
  phase : Phase
  winningSide : ℕ
  callTotal : ℕ
  putTotal : ℕ
deriving DecidableEq, Repr

/-- The winning side's total stake of a settled pool. -/
def winningSideTotalOf (pool : PoolState) : ℕ :=
  if pool.winningSide = 0 then pool.callTotal else pool.putTotal

/-- Errors of the claim contract (spec section 4.2). -/
inductive ClaimErr where
  | poolNotSettled
  | notWinner
  | alreadyClaimed
deriving DecidableEq, Repr

/-- Modelled from the spec: the `claim(pool, position)` contract of spec
section 4.2 (the on-chain `claim_prize` handler is missing from the
repository snapshot).  Fails with `PoolNotSettled`, `NotWinner` or
`AlreadyClaimed`; on success marks the position claimed and returns the net
payout `payoutShare - clearingFee`. -/
def claimPrize (settleFeeBps clearingFeeBps : ℕ) (pool : PoolState)
    (pos : Position) : Except ClaimErr (ℕ × Position) :=
  if pool.phase ≠ .settled then .error .poolNotSettled
  else if pos.side ≠ pool.winningSide then .error .notWinner
  else if pos.claimed then .error .alreadyClaimed
  else
    let totalStaked := pool.callTotal + pool.putTotal
    let d := distributableOf totalStaked settleFeeBps
    let share := payoutShare d pos.amount (winningSideTotalOf pool)
    .ok (netPayout share clearingFeeBps, { pos with claimed := true })

/-- A claimant's observable state: their position and their credited balance. -/
structure ClaimantState where
  pos : Position
  balance : ℕ
deriving DecidableEq, Repr

/-- One claim attempt against a fixed settled pool: on success the position
is marked claimed and the payout credited; on failure nothing changes. -/
def claimStep (settleFeeBps clearingFeeBps : ℕ) (pool : PoolState)
    (s : ClaimantState) : ClaimantState × Except ClaimErr ℕ :=
  match claimPrize settleFeeBps clearingFeeBps pool s.pos with
  | .error e => (s, .error e)
  | .ok (amt, pos') => (⟨pos', s.balance + amt⟩, .ok amt)

/-- Errors of the refund contract (spec section 4.4). -/
inductive RefundErr where
  | marketNotCancelled
  | alreadyClaimed
deriving DecidableEq, Repr

/-- State of a multi-option market relevant to refunds and challenges:
lifecycle phase, per-option totals (the other participants), proposer,
proposed outcome and the challenge-window end time (spec sections 3, 4.3). -/
structure MarketState where
  phase : Phase
  optionTotals : List ℕ
  proposer : ℕ
  proposedOutcome : ℕ
  challengeEndTime : ℕ
deriving DecidableEq, Repr

/-- Modelled from the spec: the `refund(position)` contract of spec section
4.4 (the on-chain `claim_cancelled_refund` handler is missing from the
repository snapshot).  Valid only when the owning market is `CANCELLED`;
fails with `AlreadyClaimed` on repeat calls; returns exactly the position's
recorded stake and marks it claimed. -/
def refund (m : MarketState) (pos : Position) : Except RefundErr (ℕ × Position) :=
  if m.phase ≠ .cancelled then .error .marketNotCancelled
  else if pos.claimed then .error .alreadyClaimed
  else .ok (pos.amount, { pos with claimed := true })

/-- Errors of the challenge step (spec section 4.3). -/
inductive ChallengeErr where
  | marketNotProposed
  | challengeWindowClosed
  | cannotChallengeOwnProposal
  | notParticipant
deriving DecidableEq, Repr

/-- Modelled from the spec: the `challenge()` transition of spec section 4.3
(the on-chain `challenge_settlement` handler is missing from the repository
snapshot).  Requires the market to be `PROPOSED`; a challenge at or after
`challengeEndTime` fails with the window-closed error; within the window any
participant other than the proposer moves the market to `DISPUTED`. -/
def challengeSettlement (m : MarketState) (challenger : ℕ)
    (challengerHasPosition : Bool) (now : ℕ) : Except ChallengeErr MarketState :=
  if m.phase ≠ .proposed then .error .marketNotProposed
  else if m.challengeEndTime ≤ now then .error .challengeWindowClosed
  else if challenger = m.proposer then .error .cannotChallengeOwnProposal
  else if ¬ challengerHasPosition then .error .notParticipant
  else .ok { m with phase := .disputed }

/-! ## Helper lemmas for the floor-division arithmetic -/

theorem bps_fee_le (x bps : ℕ) (h : bps ≤ 10000) : x * bps / 10000 ≤ x := by
  calc x * bps / 10000 ≤ x * 10000 / 10000 :=
        Nat.div_le_div_right (Nat.mul_le_mul_left x h)
    _ = x := Nat.mul_div_cancel x (by norm_num)

theorem div_add_div_le_add_div (a b c : ℕ) : a / c + b / c ≤ (a + b) / c := by
  rcases Nat.eq_zero_or_pos c with h | h
  · simp [h]
  · rw [Nat.le_div_iff_mul_le h, Nat.add_mul]
    exact Nat.add_le_add (Nat.div_mul_le_self a c) (Nat.div_mul_le_self b c)

theorem sum_map_div_le (l : List ℕ) (f : ℕ → ℕ) (c : ℕ) :
    (l.map fun x => f x / c).sum ≤ (l.map f).sum / c := by
  induction l with
  | nil => simp
  | cons a t ih =>
      simp only [List.map_cons, List.sum_cons]
      calc f a / c + (t.map fun x => f x / c).sum
          ≤ f a / c + (t.map f).sum / c := Nat.add_le_add_left ih _
        _ ≤ (f a + (t.map f).sum) / c := div_add_div_le_add_div _ _ _

theorem sum_map_mul_left_nat (d : ℕ) (l : List ℕ) :
    (l.map fun s => d * s).sum = d * l.sum := by
  induction l with
  | nil => simp
  | cons a t ih => simp [ih, Nat.mul_add]

theorem winnerShares_sum_le (d : ℕ) (stakes : List ℕ) (hW : 0 < stakes.sum) :
    (winnerShares d stakes.sum stakes).sum ≤ d := by
  unfold winnerShares payoutShare
  calc (stakes.map fun s => d * s / stakes.sum).sum
      ≤ (stakes.map fun s => d * s).sum / stakes.sum :=
        sum_map_div_le stakes (fun s => d * s) stakes.sum
    _ = d * stakes.sum / stakes.sum := by rw [sum_map_mul_left_nat]
    _ = d := Nat.mul_div_cancel _ hW

theorem net_add_clearing (sh c : ℕ) (hc : c ≤ 10000) :
    netPayout sh c + clearingFee sh c = sh := by
  unfold netPayout clearingFee
  exact Nat.sub_add_cancel (bps_fee_le sh c hc)

theorem sum_map_split (l : List ℕ) (f g : ℕ → ℕ) (h : ∀ x, f x + g x = x) :
    (l.map f).sum + (l.map g).sum = l.sum := by
  induction l with
  | nil => simp
  | cons a t ih =>
      simp only [List.map_cons, List.sum_cons]
      have ha := h a
      omega

/-- Claim C1: for every settled pool and every valid combination of stakes,
settlement-fee rate and clearing-fee rate, the sum of all net winner payouts
plus the settlement fee plus the sum of all clearing fees plus the dust
remainder equals `totalStaked` exactly, with
`settlementFee = floor(totalStaked * settleFeeBps / 10000)`,
`payoutShare = floor(distributable * positionStake / winningSideTotal)` and
`clearingFee = floor(payoutShare * clearingFeeBps / 10000)`. -/
theorem settled_pool_conservation (stakes : List ℕ)
    (losingTotal settleFeeBps clearingFeeBps : ℕ)
    (hW : 0 < stakes.sum) (hs : settleFeeBps ≤ 10000) (hc : clearingFeeBps ≤ 10000) :
    (((winnerShares (distributableOf (totalStakedOf stakes losingTotal) settleFeeBps)
        stakes.sum stakes).map fun sh => netPayout sh clearingFeeBps).sum
      + settlementFee (totalStakedOf stakes losingTotal) settleFeeBps
      + ((winnerShares (distributableOf (totalStakedOf stakes losingTotal) settleFeeBps)
        stakes.sum stakes).map fun sh => clearingFee sh clearingFeeBps).sum
      + dustRemainder (distributableOf (totalStakedOf stakes losingTotal) settleFeeBps)
        (winnerShares (distributableOf (totalStakedOf stakes losingTotal) settleFeeBps)
          stakes.sum stakes))
    = totalStakedOf stakes losingTotal := by
  set T := totalStakedOf stakes losingTotal with hT
  set d := distributableOf T settleFeeBps with hd
  set shares := winnerShares d stakes.sum stakes with hshares
  have hfee : settlementFee T settleFeeBps ≤ T := by
    unfold settlementFee
    exact bps_fee_le T settleFeeBps hs
  have hdist : d = T - settlementFee T settleFeeBps := hd
  have hsplit :
      (shares.map fun sh => netPayout sh clearingFeeBps).sum
        + (shares.map fun sh => clearingFee sh clearingFeeBps).sum = shares.sum :=
    sum_map_split shares _ _ (fun sh => net_add_clearing sh clearingFeeBps hc)
  have hle : shares.sum ≤ d := winnerShares_sum_le d stakes hW
  have hdust : dustRemainder d shares = d - shares.sum := rfl
  omega

theorem settled_pool_conservation_witness :
    0 < ([1000000000] : List ℕ).sum ∧ (200 : ℕ) ≤ 10000 ∧ (100 : ℕ) ≤ 10000 ∧
    (((winnerShares (distributableOf (totalStakedOf [1000000000] 1000000000) 200)
        ([1000000000] : List ℕ).sum [1000000000]).map fun sh => netPayout sh 100).sum
      + settlementFee (totalStakedOf [1000000000] 1000000000) 200
      + ((winnerShares (distributableOf (totalStakedOf [1000000000] 1000000000) 200)
        ([1000000000] : List ℕ).sum [1000000000]).map fun sh => clearingFee sh 100).sum
      + dustRemainder (distributableOf (totalStakedOf [1000000000] 1000000000) 200)
        (winnerShares (distributableOf (totalStakedOf [1000000000] 1000000000) 200)
          ([1000000000] : List ℕ).sum [1000000000]))
    = totalStakedOf [1000000000] 1000000000 :=
  ⟨by decide, by decide, by decide,
    settled_pool_conservation [1000000000] 1000000000 200 100
      (by decide) (by decide) (by decide)⟩

/-- Claim C2 (code bug): the claim states that when the price oracle is
unavailable the coordinator reports the failure and never returns a
fabricated or hard-coded price.  Evaluating the embedded
`PoolSettler.getCurrentPrice` at the failing inputs shows the opposite: when
the Pyth fetch throws, returns no price records, or returns an undefined
price, the settler substitutes the hard-coded mock price `105_000_000`
(`$105` in micro-units) and settlement proceeds with it. -/
theorem getCurrentPrice_mocks_on_oracle_failure :
    getCurrentPrice (.error ()) = some 105000000 ∧
    getCurrentPrice (.ok []) = some 105000000 ∧
    getCurrentPrice (.ok [none]) = some 105000000 :=
  ⟨rfl, rfl, rfl⟩

/-- Claim C3 (code bug): the claim states that a pool is removed from the
scheduler registry only after a terminal outcome, and remains tracked on a
price-unavailable or failed-submission attempt.  Evaluating the embedded
`PoolSettler.settlePool` shows the opposite: because `settleExpiredPool`
swallows every error, the `activePools.delete` that the source comments
reserve for "successful settlement" runs unconditionally, so a pool whose
price fetch returned `null` — and likewise one whose `settle_pool`
submission failed — is silently dropped from the registry. -/
theorem settlePool_drops_pool_on_failed_attempt :
    settlePoolStep [7] 7 (.ok 0) none (.ok ()) (.ok ())
      = ([], some .priceUnavailable) ∧
    settlePoolStep [7] 7 (.ok 0) (some 105000000) (.ok ()) (.error ())
      = ([], some .submitFailed) :=
  ⟨rfl, rfl⟩

/-- Claim C4 (counterexample): the claim states that concurrent settlement
triggers for one pool collapse to at most one in-flight attempt.  Starting
from the empty scheduler state, delivering the same `poolCreated`
notification twice for pool `1` (expiry 10 s, clock 0 ms) arms two timers —
`handleNewPool` overwrites the registry entry without cancelling the first
timer — and when both fire the scheduler has two concurrent `settlePool`
executions for pool `1`: the in-flight count is `2`, not at most `1`. -/
theorem scheduler_dedup_counterexample :
    inFlightCount (schedRun SchedState.init
      [.created 1 10 0, .created 1 10 0, .timerFires 1, .timerFires 1]) 1 = 2 ∧
    ¬ inFlightCount (schedRun SchedState.init
      [.created 1 10 0, .created 1 10 0, .timerFires 1, .timerFires 1]) 1 ≤ 1 := by
  decide

/-- Claim C4 (amended): the scheduler does not de-duplicate concurrent
triggers for the same pool.  A duplicated creation notification for any pool
whose deadline is still in the future overwrites the registry entry without
cancelling the previously armed timer, so both timers remain pending and
when both fire the scheduler runs two concurrent settlement attempts for
that pool; only the ledger-side status check inside `settlePool` prevents a
duplicate on-chain settlement. -/
theorem scheduler_no_dedup_on_duplicate_notification (p : ℕ) (expirySec nowMs : ℤ)
    (h : nowMs < expirySec * 1000) :
    inFlightCount (schedRun SchedState.init
      [.created p expirySec nowMs, .created p expirySec nowMs,
       .timerFires p, .timerFires p]) p = 2 := by
  have hcond : ¬ (expirySec * 1000 - nowMs ≤ 0) := by omega
  simp [schedRun, schedStep, schedulePoolSettlement, hcond, registrySet,
        SchedState.init, inFlightCount, List.count_cons]

theorem scheduler_no_dedup_on_duplicate_notification_witness :
    (0 : ℤ) < 10 * 1000 ∧
    inFlightCount (schedRun SchedState.init
      [.created 2 10 0, .created 2 10 0, .timerFires 2, .timerFires 2]) 2 = 2 :=
  ⟨by decide, scheduler_no_dedup_on_duplicate_notification 2 10 0 (by decide)⟩

/-- Claim C5: the winning side computed at settlement is `0` (upper/CALL)
exactly when the resolved price is strictly greater than the target
threshold, and a resolved price exactly equal to the target always resolves
to `1` (lower/PUT) — embedding the comparator
`currentPrice.gt(targetPrice) ? 0 : 1` of `settleExpiredPool`. -/
theorem winning_side_iff_above_target (currentPrice targetPrice : ℤ) :
    (winningSideOf currentPrice targetPrice = 0 ↔ targetPrice < currentPrice) ∧
    winningSideOf targetPrice targetPrice = 1 := by
  constructor
  · unfold winningSideOf
    by_cases h : targetPrice < currentPrice <;> simp [h]
  · simp [winningSideOf]

/-- Claim C6: for a winning position of a settled pool, the first claim
succeeds, marks the position claimed and credits exactly the net payout;
every subsequent claim returns `AlreadyClaimed` and changes nothing — the
post-claim state is a fixed point of the claim step, so a retried claim
never double-pays. -/
theorem claim_idempotent (settleFeeBps clearingFeeBps : ℕ) (pool : PoolState)
    (pos : Position) (bal : ℕ) (hphase : pool.phase = .settled)
    (hside : pos.side = pool.winningSide) (hcl : pos.claimed = false) :
    (claimStep settleFeeBps clearingFeeBps pool ⟨pos, bal⟩).2
        = .ok (netPayout (payoutShare
            (distributableOf (pool.callTotal + pool.putTotal) settleFeeBps)
            pos.amount (winningSideTotalOf pool)) clearingFeeBps) ∧
    (claimStep settleFeeBps clearingFeeBps pool ⟨pos, bal⟩).1.pos.claimed = true ∧
    (claimStep settleFeeBps clearingFeeBps pool ⟨pos, bal⟩).1.balance
        = bal + netPayout (payoutShare
            (distributableOf (pool.callTotal + pool.putTotal) settleFeeBps)
            pos.amount (winningSideTotalOf pool)) clearingFeeBps ∧
    (claimStep settleFeeBps clearingFeeBps pool
        (claimStep settleFeeBps clearingFeeBps pool ⟨pos, bal⟩).1).2
        = .error .alreadyClaimed ∧
    (claimStep settleFeeBps clearingFeeBps pool
        (claimStep settleFeeBps clearingFeeBps pool ⟨pos, bal⟩).1).1
        = (claimStep settleFeeBps clearingFeeBps pool ⟨pos, bal⟩).1 := by
  simp [claimStep, claimPrize, hphase, hside, hcl]

theorem claim_idempotent_witness :
    (PoolState.mk .settled 0 1000000000 1000000000).phase = .settled ∧
    (Position.mk 0 1000000000 false).side
      = (PoolState.mk .settled 0 1000000000 1000000000).winningSide ∧
    (Position.mk 0 1000000000 false).claimed = false ∧
    ((claimStep 200 100 (PoolState.mk .settled 0 1000000000 1000000000)
        ⟨Position.mk 0 1000000000 false, 0⟩).2 = .ok 1940400000 ∧
      (claimStep 200 100 (PoolState.mk .settled 0 1000000000 1000000000)
        (claimStep 200 100 (PoolState.mk .settled 0 1000000000 1000000000)
          ⟨Position.mk 0 1000000000 false, 0⟩).1).2 = .error .alreadyClaimed) := by
  refine ⟨rfl, rfl, rfl, ?_, ?_⟩
  · have h := (claim_idempotent 200 100 (PoolState.mk .settled 0 1000000000 1000000000)
      (Position.mk 0 1000000000 false) 0 rfl rfl rfl).1
    rw [h]
    rfl
  · exact (claim_idempotent 200 100 (PoolState.mk .settled 0 1000000000 1000000000)
      (Position.mk 0 1000000000 false) 0 rfl rfl rfl).2.2.2.1

/-- Claim C7: for every position of a cancelled market — whatever the other
participants' totals are, since the market state `m` is arbitrary — the
refund returns exactly the position's recorded cumulative stake with no fee
and no rounding, marks it claimed, and a repeat call fails with
`AlreadyClaimed`. -/
theorem refund_exact_and_once (m : MarketState) (pos : Position)
    (hm : m.phase = .cancelled) (hcl : pos.claimed = false) :
    refund m pos = .ok (pos.amount, { pos with claimed := true }) ∧
    refund m { pos with claimed := true } = .error .alreadyClaimed := by
  simp [refund, hm, hcl]

theorem refund_exact_and_once_witness :
    (MarketState.mk .cancelled [500000000, 500000000] 0 0 0).phase = .cancelled ∧
    (Position.mk 0 500000000 false).claimed = false ∧
    refund (MarketState.mk .cancelled [500000000, 500000000] 0 0 0)
        (Position.mk 0 500000000 false)
      = .ok (500000000, Position.mk 0 500000000 true) ∧
    refund (MarketState.mk .cancelled [500000000, 500000000] 0 0 0)
        (Position.mk 0 500000000 true)
      = .error .alreadyClaimed := by
  refine ⟨rfl, rfl, ?_, ?_⟩
  · exact (refund_exact_and_once (MarketState.mk .cancelled [500000000, 500000000] 0 0 0)
      (Position.mk 0 500000000 false) rfl rfl).1
  · exact (refund_exact_and_once (MarketState.mk .cancelled [500000000, 500000000] 0 0 0)
      (Position.mk 0 500000000 false) rfl rfl).2

/-- Claim C8: for a market in the `PROPOSED` state, a challenge submitted at
or after `challengeEndTime` is rejected with the window-closed error
(whoever submits it), and a challenge submitted strictly before
`challengeEndTime` by a participant other than the proposer is accepted and
moves the market to `DISPUTED`. -/
theorem challenge_window_boundary (m : MarketState) (challenger now : ℕ)
    (hm : m.phase = .proposed) :
    (m.challengeEndTime ≤ now → ∀ hasPos : Bool,
      challengeSettlement m challenger hasPos now = .error .challengeWindowClosed) ∧
    (now < m.challengeEndTime → challenger ≠ m.proposer →
      challengeSettlement m challenger true now = .ok { m with phase := .disputed }) := by
  constructor
  · intro h hasPos
    simp [challengeSettlement, hm, h]
  · intro h hne
    have hnotle : ¬ (m.challengeEndTime ≤ now) := by omega
    simp [challengeSettlement, hm, hnotle, hne]

theorem challenge_window_boundary_witness :
    (MarketState.mk .proposed [100, 100] 5 0 1000).phase = .proposed ∧
    (challengeSettlement (MarketState.mk .proposed [100, 100] 5 0 1000) 6 true 1000
        = .error .challengeWindowClosed ∧
      challengeSettlement (MarketState.mk .proposed [100, 100] 5 0 1000) 6 true 999
        = .ok (MarketState.mk .disputed [100, 100] 5 0 1000)) := by
  refine ⟨rfl, ?_, ?_⟩
  · exact (challenge_window_boundary (MarketState.mk .proposed [100, 100] 5 0 1000)
      6 1000 rfl).1 (by decide) true
  · exact (challenge_window_boundary (MarketState.mk .proposed [100, 100] 5 0 1000)
      6 999 rfl).2 (by decide) (by decide)

/-- Claim C9: a pool whose deadline has already passed (or is exactly now)
when tracked is settled immediately rather than dropped, and a pool whose
deadline lies in the future gets a one-shot timer that fires exactly at the
deadline (`expiry * 1000` milliseconds). -/
theorem schedule_fires_immediately_or_at_deadline (expirySec nowMs : ℤ) :
    (expirySec * 1000 ≤ nowMs →
      schedulePoolSettlement expirySec nowMs = .fireNow) ∧
    (nowMs < expirySec * 1000 →
      schedulePoolSettlement expirySec nowMs = .timerAt (expirySec * 1000)) := by
  constructor
  · intro h
    have hc : expirySec * 1000 - nowMs ≤ 0 := by omega
    simp [schedulePoolSettlement, hc]
  · intro h
    have hc : ¬ (expirySec * 1000 - nowMs ≤ 0) := by omega
    have harith : nowMs + (expirySec * 1000 - nowMs) = expirySec * 1000 := by omega
    simp [schedulePoolSettlement, hc, harith]

theorem schedule_fires_immediately_or_at_deadline_witness :
    schedulePoolSettlement 10 20000 = .fireNow ∧
    schedulePoolSettlement 10 5000 = .timerAt 10000 :=
  ⟨(schedule_fires_immediately_or_at_deadline 10 20000).1 (by decide),
    (schedule_fires_immediately_or_at_deadline 10 5000).2 (by decide)⟩

/-- Claim C10: the scanner read methods `getMarketById`, `getUserBet` and
`getConfig` are total: for every fetch outcome each returns a value, and it
is `none` (the embedded `null`) exactly when the underlying account fetch
failed — a nonexistent market, bet or config never propagates an
exception. -/
theorem scanner_reads_are_total (fm : Except Unit MarketAccount)
    (fb : Except Unit UserBetAccount) (fc : Except Unit ConfigAccount) :
    ((getMarketById fm).isSome = exceptIsOk fm) ∧
    ((getUserBet fb).isSome = exceptIsOk fb) ∧
    ((getConfig fc).isSome = exceptIsOk fc) :=
  ⟨by cases fm <;> rfl, by cases fb <;> rfl, by cases fc <;> rfl⟩
